import Mathlib

/-!
Verification of the Sia block-acceptance engine (`consensus.AcceptBlock` and
its helpers `validateHeader` and `addBlockToTree`) and of the version-string
utility `build.IsVersion`, as a shallow embedding in Lean.

The embedding follows the Go source.  External collaborators that the source
calls but whose code lives outside this repository (the block validator, the
block-rule helper, the difficulty rule, the chain-weight comparison, the
store marshaler, `newChild`, `forkBlockchain`, `inconsistencyDetected`) are
modelled from the specification: they appear either as parameters of
`CSParams` or as definitions whose doc comment starts with
"Modelled from the spec".
-/

namespace Sia

/-- Content-derived block identifier (`types.BlockID`), modelled abstractly
as a natural number. -/
abbrev BlockID := Nat

/-- A block header, keeping only the fields that the acceptance pipeline
reads: its own ID (content-derived, computed by the external `types`
package, so carried here as a field), the declared parent reference and the
timestamp. -/
structure Block where
  id : BlockID
  parentID : BlockID
  timestamp : Nat
  deriving DecidableEq, Repr

/-- A processed block: a block plus the store-persisted metadata the
pipeline reads (height = parent height + 1, and the difficulty target
required of children). -/
structure processedBlock where
  block : Block
  height : Nat
  childTarget : Nat
  deriving DecidableEq, Repr

/-- A serialized processed-block record as stored in the block map.  The
marshaler is external, so a stored value is modelled as either a record that
decodes correctly or corrupt bytes whose decoding fails. -/
inductive EncodedPB where
  | ok (pb : processedBlock)
  | corrupt
  deriving DecidableEq, Repr

/-- One change-log entry: the IDs of the blocks reverted (tip to common
ancestor) and applied (common ancestor to new tip) by one acceptance. -/
structure changeEntry where
  revertedBlocks : List BlockID
  appliedBlocks : List BlockID
  deriving DecidableEq, Repr

/-- The persistent store visible to the pipeline: whether the `BlockMap`
bucket exists, the block map itself, the well-known current-tip pointer, and
whether `inconsistencyDetected` reports corruption (the detector itself is
external; it is modelled from the spec as a persistent flag of the store). -/
structure Store where
  hasBlockMap : Bool
  blockMap : BlockID → Option EncodedPB
  currentID : BlockID
  inconsistent : Bool

/-- The mutable consensus-set state the acceptance pipeline touches: the DoS
set, the store, and the in-memory change log. -/
structure CState where
  dosBlocks : List BlockID
  store : Store
  changeLog : List changeEntry

/-- Result classification of the external block validator
(`ValidateBlock`): a block can be rejected outright or flagged as having a
timestamp too far in the future. -/
inductive VErr where
  | future
  | rejected
  deriving DecidableEq, Repr

/-- The error outcomes of the acceptance pipeline, one constructor per Go
error value reachable from the embedded code. -/
inductive CErr where
  | doSBlock
  | noBlockMap
  | blockKnown
  | orphan
  | unmarshalFail
  | futureTimestamp
  | validationFailed
  | nonExtending
  | inconsistentDB
  | nilItem
  deriving DecidableEq, Repr

/-- Mapping from a validator rejection to the pipeline error it surfaces
as. -/
def VErr.toCErr : VErr → CErr
  | .future => .futureTimestamp
  | .rejected => .validationFailed

/-- The external capabilities the consensus set is constructed with.
Modelled from the spec: the block-rule helper
(`minimumValidChildTimestamp`), the block validator (`ValidateBlock`), the
child-difficulty rule used by `newChild`, the chain-weight comparison
`heavierThan`, and the future-timestamp tolerance `types.FutureThreshold`
are all external collaborators, injected rather than hardcoded. -/
structure CSParams where
  minimumValidChildTimestamp : Store → processedBlock → Nat
  validateBlock : Block → Nat → Nat → Nat → Option VErr
  childTargetRule : processedBlock → Block → Nat
  heavierThan : processedBlock → processedBlock → Bool
  futureThreshold : Nat

/-- Decoding of a stored record (`cs.marshaler.Unmarshal`); corrupt bytes
fail. -/
def unmarshalPB : EncodedPB → Except CErr processedBlock
  | .ok pb => .ok pb
  | .corrupt => .error .unmarshalFail

/-- Embedding of `ConsensusSet.validateHeader`: the early, low-computation
checks, in source order — DoS set, block-map bucket presence, duplicate
block, parent lookup, parent decoding, minimum-timestamp computation,
delegation to the block validator. -/
def validateHeader (p : CSParams) (cs : CState) (b : Block) :
    Except CErr Unit :=
  if cs.dosBlocks.contains b.id then .error .doSBlock
  else if !cs.store.hasBlockMap then .error .noBlockMap
  else if (cs.store.blockMap b.id).isSome then .error .blockKnown
  else
    match cs.store.blockMap b.parentID with
    | none => .error .orphan
    | some e =>
      match unmarshalPB e with
      | .error er => .error er
      | .ok parent =>
        let minTimestamp := p.minimumValidChildTimestamp cs.store parent
        match p.validateBlock b minTimestamp parent.childTarget
            (parent.height + 1) with
        | some v => .error v.toCErr
        | none => .ok ()

/-- Embedding of `getBlockMap`: fetch a processed block from the block map
and decode it; a missing key surfaces as the nil-item error. -/
def getBlockMap (s : Store) (id : BlockID) : Except CErr processedBlock :=
  match s.blockMap id with
  | none => .error .nilItem
  | some e => unmarshalPB e

/-- Modelled from the spec: `newChild` (not in this repository's sources)
builds the child record — height = parent height + 1, child target from the
delegated difficulty rule — and writes it into the block map within the
current transaction. -/
def newChild (p : CSParams) (s : Store) (pb : processedBlock) (b : Block) :
    processedBlock × Store :=
  let child : processedBlock :=
    { block := b, height := pb.height + 1, childTarget := p.childTargetRule pb b }
  (child,
   { s with blockMap := fun i => if i = b.id then some (.ok child) else s.blockMap i })

/-- Modelled from the spec: the upward walk toward genesis used by fork
resolution — a block followed by its ancestors, by repeated parent lookup,
with fuel bounding the recursion. -/
def ancestry (s : Store) : Nat → processedBlock → List processedBlock
  | 0, n => [n]
  | fuel + 1, n =>
    if n.height = 0 then [n]
    else
      match getBlockMap s n.block.parentID with
      | .error _ => [n]
      | .ok parent => n :: ancestry s fuel parent

/-- Modelled from the spec: `forkBlockchain` (not in this repository's
sources) walks the old tip and the new node upward to the first common
ancestor; the blocks above the ancestor on the old side, tip-to-ancestor,
form the revert list, the blocks above it on the new side plus the new node,
ancestor-to-tip, form the apply list, and the current pointer is retargeted
to the new node in the same transaction.  When the new node's parent is the
old tip this yields revert = [] and apply = [new node]. -/
def forkBlockchain (s : Store) (curNode newNode : processedBlock) :
    List processedBlock × List processedBlock × Store :=
  let oldPath := ancestry s (curNode.height + 1) curNode
  let newTail : List processedBlock :=
    match getBlockMap s newNode.block.parentID with
    | .error _ => []
    | .ok parent => ancestry s (newNode.height + 1) parent
  let anc : Option processedBlock :=
    newTail.find? fun a =>
      oldPath.any fun (q : processedBlock) => q.block.id == a.block.id
  let reverted :=
    match anc with
    | some a =>
      oldPath.takeWhile fun (q : processedBlock) => q.block.id != a.block.id
    | none => oldPath
  let appliedAbove :=
    match anc with
    | some a =>
      newTail.takeWhile fun (q : processedBlock) => q.block.id != a.block.id
    | none => newTail
  (reverted, appliedAbove.reverse ++ [newNode],
   { s with currentID := newNode.block.id })

/-- Embedding of `ConsensusSet.addBlockToTree`: inside one read-write
transaction, fetch the parent and the current tip, build the child via
`newChild`, and either commit as non-extending (the child persists but the
distinguished non-extending error is returned) or fork the blockchain and
commit.  The returned store is the state after the transaction: unchanged
when the transaction aborts with an error, committed otherwise. -/
def addBlockToTree (p : CSParams) (s : Store) (b : Block) :
    Store × Except CErr (List processedBlock × List processedBlock) :=
  match getBlockMap s b.parentID with
  | .error e => (s, .error e)
  | .ok pb =>
    match getBlockMap s s.currentID with
    | .error e => (s, .error e)
    | .ok currentNode =>
      let nc := newChild p s pb b
      if p.heavierThan nc.1 currentNode then
        let f := forkBlockchain nc.2 currentNode nc.1
        (f.2.2, .ok (f.1, f.2.1))
      else
        (nc.2, .error .nonExtending)

/-- The body of the read-only `db.View` transaction at the top of
`AcceptBlock`: the database-consistency precheck followed by
`validateHeader`; `none` means the header phase passed. -/
def acceptPrecheck (p : CSParams) (cs : CState) (b : Block) : Option CErr :=
  if cs.store.inconsistent then some .inconsistentDB
  else
    match validateHeader p cs b with
    | .error e => some e
    | .ok _ => none

/-- The observable outcome of one `AcceptBlock` call: the returned error (if
any), the consensus state afterwards, the change entries delivered to
subscribers, the deferred retry scheduled on a future timestamp (delay in
seconds paired with the block to re-accept), whether the block was relayed,
whether a read-only / read-write store transaction was opened, and whether
the debug sanity check on mismatched revert/apply lists fired. -/
structure AcceptResult where
  err : Option CErr
  state : CState
  notified : List changeEntry
  scheduledRetry : Option (Nat × Block)
  broadcast : Bool
  viewTxOpened : Bool
  updateTxOpened : Bool
  panicked : Bool

/-- Embedding of `ConsensusSet.AcceptBlock`: under the exclusive lock, run
the consistency precheck and header validation inside a read-only
transaction (scheduling a deferred re-acceptance on a future timestamp),
then add the block to the tree inside a read-write transaction, append one
change entry to the change log, demote the lock, notify subscribers when the
apply list is non-empty, run the debug sanity check, and relay the block. -/
def AcceptBlock (p : CSParams) (now : Nat) (cs : CState) (b : Block) :
    AcceptResult :=
  match acceptPrecheck p cs b with
  | some e =>
    { err := some e
      state := cs
      notified := []
      scheduledRetry :=
        if e = CErr.futureTimestamp then
          some (b.timestamp - (now + p.futureThreshold), b)
        else none
      broadcast := false
      viewTxOpened := true
      updateTxOpened := false
      panicked := false }
  | none =>
    let r := addBlockToTree p cs.store b
    match r.2 with
    | .error e =>
      { err := some e
        state := { cs with store := r.1 }
        notified := []
        scheduledRetry := none
        broadcast := false
        viewTxOpened := true
        updateTxOpened := true
        panicked := false }
    | .ok (rev, app) =>
      let ce : changeEntry :=
        { revertedBlocks := rev.map fun rn => rn.block.id
          appliedBlocks := app.map fun an => an.block.id }
      { err := none
        state := { cs with store := r.1, changeLog := cs.changeLog ++ [ce] }
        notified := if app.length > 0 then [ce] else []
        scheduledRetry := none
        broadcast := true
        viewTxOpened := true
        updateTxOpened := true
        panicked := app.isEmpty && !rev.isEmpty }

/-! Concrete instances used to exercise the pipeline. -/

/-- A concrete parameter set: permissive validator, constant rule helper and
difficulty rule, height comparison as chain weight, tolerance 10 s. -/
def pW : CSParams :=
  { minimumValidChildTimestamp := fun _ _ => 0
    validateBlock := fun _ _ _ _ => none
    childTargetRule := fun _ _ => 1
    heavierThan := fun n c => decide (c.height < n.height)
    futureThreshold := 10 }

/-- Parameters whose validator always reports a future timestamp. -/
def pFuture : CSParams :=
  { pW with validateBlock := fun _ _ _ _ => some .future }

/-- The genesis block of the concrete scenarios. -/
def genesisBlock : Block := { id := 1, parentID := 0, timestamp := 0 }

/-- Genesis as a processed block. -/
def genesisPB : processedBlock :=
  { block := genesisBlock, height := 0, childTarget := 1 }

/-- A store holding only genesis, with genesis as the current tip. -/
def storeW : Store :=
  { hasBlockMap := true
    blockMap := fun i => if i = 1 then some (.ok genesisPB) else none
    currentID := 1
    inconsistent := false }

/-- A consensus state over `storeW` with an empty DoS set and change log. -/
def csW : CState := { dosBlocks := [], store := storeW, changeLog := [] }

/-- A child of genesis. -/
def b2 : Block := { id := 2, parentID := 1, timestamp := 5 }

/-- The processed record of `b2` under `pW`. -/
def pb2 : processedBlock := { block := b2, height := 1, childTarget := 1 }

/-- A store holding genesis and `b2`, with `b2` as the current tip. -/
def storeW2 : Store :=
  { hasBlockMap := true
    blockMap := fun i =>
      if i = 1 then some (.ok genesisPB)
      else if i = 2 then some (.ok pb2)
      else none
    currentID := 2
    inconsistent := false }

/-- A consensus state over `storeW2`. -/
def csW2 : CState := { dosBlocks := [], store := storeW2, changeLog := [] }

/-- A sibling of `b2` (same parent, same height, so not heavier under
`pW`). -/
def b3 : Block := { id := 3, parentID := 1, timestamp := 6 }

/-- A block whose declared parent is in no store of these scenarios. -/
def bOrphan : Block := { id := 4, parentID := 99, timestamp := 7 }

/-- A block listed in the DoS set of `csDos`. -/
def bDos : Block := { id := 7, parentID := 1, timestamp := 8 }

/-- A consensus state whose DoS set holds `bDos`. -/
def csDos : CState := { dosBlocks := [7], store := storeW, changeLog := [] }

/-- A consensus state whose store fails the consistency precheck. -/
def csBad : CState :=
  { dosBlocks := [], store := { storeW with inconsistent := true }, changeLog := [] }

/-- A block whose parent record is present but corrupt in `csCorrupt`. -/
def bCorruptParent : Block := { id := 5, parentID := 6, timestamp := 9 }

/-- A store whose entry for block 6 does not decode. -/
def storeCorrupt : Store :=
  { hasBlockMap := true
    blockMap := fun i =>
      if i = 1 then some (.ok genesisPB)
      else if i = 6 then some .corrupt
      else none
    currentID := 1
    inconsistent := false }

/-- A consensus state over `storeCorrupt`. -/
def csCorrupt : CState :=
  { dosBlocks := [], store := storeCorrupt, changeLog := [] }

/-- A child of genesis bearing a timestamp far in the future. -/
def bFut : Block := { id := 8, parentID := 1, timestamp := 200 }

end Sia

namespace build

/-- Embedding of `strings.Split` with a one-character separator, over the
string's character list: splitting the empty list yields one empty
component, matching Go. -/
def splitOnChar (sep : Char) : List Char → List (List Char)
  | [] => [[]]
  | c :: rest =>
    if c = sep then [] :: splitOnChar sep rest
    else
      match splitOnChar sep rest with
      | [] => [[c]]
      | t :: ts => (c :: t) :: ts

/-- Digit string to value, most significant first. -/
def digitsToNat (ds : List Char) : Nat :=
  ds.foldl (fun a c => 10 * a + (c.toNat - 48)) 0

/-- Embedding of `strconv.Atoi` (= `ParseInt` base 10, 64-bit) on a
component's character list: an optional sign followed by one or more decimal
digits, with the value required to fit in a signed 64-bit integer; `none` is
a parse error. -/
def atoi (s : List Char) : Option Int :=
  let p : Bool × List Char :=
    match s with
    | '-' :: rest => (true, rest)
    | '+' :: rest => (false, rest)
    | l => (false, l)
  if p.2.isEmpty then none
  else if !p.2.all Char.isDigit then none
  else
    let v := digitsToNat p.2
    if p.1 then
      if v ≤ 2 ^ 63 then some (-(v : Int)) else none
    else
      if v < 2 ^ 63 then some (v : Int) else none

/-- The loop body of `IsVersion`: try each dot-separated component in order,
returning false at the first component `strconv.Atoi` rejects. -/
def isVersionLoop : List (List Char) → Bool
  | [] => true
  | n :: rest => if (atoi n).isNone then false else isVersionLoop rest

/-- Embedding of `build.IsVersion`: split on "." and require every
component to parse as a decimal integer. -/
def IsVersion (str : String) : Bool :=
  isVersionLoop (splitOnChar '.' str.data)



/-- The loop of `IsVersion` accepts a component list exactly when every
component parses. -/
lemma isVersionLoop_eq_all (l : List (List Char)) :
    isVersionLoop l = l.all fun n => (atoi n).isSome := by
  induction l with
  | nil => rfl
  | cons n rest ih => cases h : atoi n <;> simp [isVersionLoop, h, ih]

/-- C10: `IsVersion` returns true exactly when every dot-separated component
of the input parses as a decimal integer via `strconv.Atoi`; in particular
it accepts strings with signed components (`IsVersion "-1.2" = true`) and
rejects the empty string (`IsVersion "" = false`), since splitting the
empty string yields one empty component, which fails to parse. -/
theorem isVersion_characterization :
    (∀ s : String,
      IsVersion s = (splitOnChar '.' s.data).all fun n => (atoi n).isSome) ∧
    IsVersion "-1.2" = true ∧ IsVersion "" = false ∧
    splitOnChar '.' "".data = [[]] ∧ atoi [] = none := by
  exact ⟨fun s => isVersionLoop_eq_all _, by decide, by decide, by decide,
    by decide⟩

end build

namespace Sia

/-- A DoS-listed block fails header validation with the known-invalid
error, whatever the store and capabilities hold. -/
lemma validateHeader_dos (p : CSParams) (cs : CState) (b : Block)
    (h : cs.dosBlocks.contains b.id = true) :
    validateHeader p cs b = .error .doSBlock := by
  have h' : b.id ∈ cs.dosBlocks := by simpa using h
  simp [validateHeader, h']

/-- A block already present in the block map fails header validation with
the already-known error. -/
lemma validateHeader_known (p : CSParams) (cs : CState) (b : Block)
    (h1 : cs.dosBlocks.contains b.id = false)
    (h2 : cs.store.hasBlockMap = true)
    (h3 : (cs.store.blockMap b.id).isSome = true) :
    validateHeader p cs b = .error .blockKnown := by
  have h1' : b.id ∉ cs.dosBlocks := by simpa using h1
  simp [validateHeader, h1', h2, h3]

/-- A block whose parent is absent fails header validation with the orphan
error. -/
lemma validateHeader_orphan (p : CSParams) (cs : CState) (b : Block)
    (h1 : cs.dosBlocks.contains b.id = false)
    (h2 : cs.store.hasBlockMap = true)
    (h3 : cs.store.blockMap b.id = none)
    (h4 : cs.store.blockMap b.parentID = none) :
    validateHeader p cs b = .error .orphan := by
  have h1' : b.id ∉ cs.dosBlocks := by simpa using h1
  simp [validateHeader, h1', h2, h3, h4]

/-- A corrupt parent record fails header validation with the decode
error. -/
lemma validateHeader_corrupt (p : CSParams) (cs : CState) (b : Block)
    (h1 : cs.dosBlocks.contains b.id = false)
    (h2 : cs.store.hasBlockMap = true)
    (h3 : cs.store.blockMap b.id = none)
    (h4 : cs.store.blockMap b.parentID = some .corrupt) :
    validateHeader p cs b = .error .unmarshalFail := by
  have h1' : b.id ∉ cs.dosBlocks := by simpa using h1
  simp [validateHeader, h1', h2, h3, h4, unmarshalPB]

/-- Once the cheap checks pass and the parent decodes, header validation is
exactly the block validator's verdict on (block, minimum child timestamp,
parent's child target, parent height + 1). -/
lemma validateHeader_delegates (p : CSParams) (cs : CState) (b : Block)
    (parent : processedBlock)
    (h1 : cs.dosBlocks.contains b.id = false)
    (h2 : cs.store.hasBlockMap = true)
    (h3 : cs.store.blockMap b.id = none)
    (h4 : cs.store.blockMap b.parentID = some (.ok parent)) :
    validateHeader p cs b =
      match p.validateBlock b (p.minimumValidChildTimestamp cs.store parent)
          parent.childTarget (parent.height + 1) with
      | some v => .error v.toCErr
      | none => .ok () := by
  have h1' : b.id ∉ cs.dosBlocks := by simpa using h1
  simp [validateHeader, h1', h2, h3, h4, unmarshalPB]

/-- A passed header validation pins down the cheap checks: the block is not
DoS-listed, the block map exists, and the block is not yet stored. -/
lemma validateHeader_ok_facts (p : CSParams) (cs : CState) (b : Block)
    (h : validateHeader p cs b = .ok ()) :
    cs.dosBlocks.contains b.id = false ∧ cs.store.hasBlockMap = true ∧
    cs.store.blockMap b.id = none := by
  unfold validateHeader at h
  split_ifs at h with h1 h2 h3
  exact ⟨by simpa using h1, by simpa using h2,
    Option.not_isSome_iff_eq_none.mp h3⟩

/-- An inconsistent store fails the precheck with the fatal consistency
error. -/
lemma acceptPrecheck_inconsistent (p : CSParams) (cs : CState) (b : Block)
    (h : cs.store.inconsistent = true) :
    acceptPrecheck p cs b = some .inconsistentDB := by
  simp [acceptPrecheck, h]

/-- On a consistent store the precheck forwards a header-validation
error. -/
lemma acceptPrecheck_header_error (p : CSParams) (cs : CState) (b : Block)
    (e : CErr) (h0 : cs.store.inconsistent = false)
    (h : validateHeader p cs b = .error e) :
    acceptPrecheck p cs b = some e := by
  simp [acceptPrecheck, h0, h]

/-- A passed precheck means the store is consistent and the header is
valid. -/
lemma acceptPrecheck_none_inv (p : CSParams) (cs : CState) (b : Block)
    (h : acceptPrecheck p cs b = none) :
    cs.store.inconsistent = false ∧ validateHeader p cs b = .ok () := by
  unfold acceptPrecheck at h
  split_ifs at h with h1
  refine ⟨by simpa using h1, ?_⟩
  cases hv : validateHeader p cs b with
  | error e => rw [hv] at h; exact absurd h (by simp)
  | ok u => cases u; rfl

/-- `AcceptBlock` on a failed precheck: the error is returned with the
state untouched, scheduling a deferred retry exactly on the
future-timestamp signal. -/
lemma AcceptBlock_of_precheck_some (p : CSParams) (now : Nat) (cs : CState)
    (b : Block) (e : CErr) (h : acceptPrecheck p cs b = some e) :
    AcceptBlock p now cs b =
      { err := some e
        state := cs
        notified := []
        scheduledRetry :=
          if e = CErr.futureTimestamp then
            some (b.timestamp - (now + p.futureThreshold), b)
          else none
        broadcast := false
        viewTxOpened := true
        updateTxOpened := false
        panicked := false } := by
  simp [AcceptBlock, h]

/-- `AcceptBlock` when the tree-insertion transaction ends in an error: the
error is returned and the store is whatever the transaction left (unchanged
on abort, committed on the non-extending path). -/
lemma AcceptBlock_of_tree_error (p : CSParams) (now : Nat) (cs : CState)
    (b : Block) (e : CErr) (h0 : acceptPrecheck p cs b = none)
    (h : (addBlockToTree p cs.store b).2 = .error e) :
    AcceptBlock p now cs b =
      { err := some e
        state := { cs with store := (addBlockToTree p cs.store b).1 }
        notified := []
        scheduledRetry := none
        broadcast := false
        viewTxOpened := true
        updateTxOpened := true
        panicked := false } := by
  simp [AcceptBlock, h0, h]

/-- `AcceptBlock` on a successful, extending insertion: one change entry is
appended, subscribers are notified when the apply list is non-empty, and
the block is relayed. -/
lemma AcceptBlock_of_tree_ok (p : CSParams) (now : Nat) (cs : CState)
    (b : Block) (rev app : List processedBlock)
    (h0 : acceptPrecheck p cs b = none)
    (h : (addBlockToTree p cs.store b).2 = .ok (rev, app)) :
    AcceptBlock p now cs b =
      { err := none
        state :=
          { cs with store := (addBlockToTree p cs.store b).1
                    changeLog := cs.changeLog ++
                      [{ revertedBlocks := rev.map fun rn => rn.block.id
                         appliedBlocks := app.map fun an => an.block.id }] }
        notified :=
          if app.length > 0 then
            [{ revertedBlocks := rev.map fun rn => rn.block.id
               appliedBlocks := app.map fun an => an.block.id }]
          else []
        scheduledRetry := none
        broadcast := true
        viewTxOpened := true
        updateTxOpened := true
        panicked := app.isEmpty && !rev.isEmpty } := by
  simp [AcceptBlock, h0, h]

/-- Tree insertion aborts unchanged when the parent record cannot be
fetched. -/
lemma addBlockToTree_parent_error (p : CSParams) (s : Store) (b : Block)
    (e : CErr) (hp : getBlockMap s b.parentID = .error e) :
    addBlockToTree p s b = (s, .error e) := by
  simp [addBlockToTree, hp]

/-- Tree insertion aborts unchanged when the current tip cannot be
fetched. -/
lemma addBlockToTree_current_error (p : CSParams) (s : Store) (b : Block)
    (pb : processedBlock) (e : CErr)
    (hp : getBlockMap s b.parentID = .ok pb)
    (hc : getBlockMap s s.currentID = .error e) :
    addBlockToTree p s b = (s, .error e) := by
  simp [addBlockToTree, hp, hc]

/-- Tree insertion of a block that is not heavier than the tip commits the
new child and returns the non-extending error. -/
lemma addBlockToTree_nonExtending (p : CSParams) (s : Store) (b : Block)
    (pb cur : processedBlock)
    (hp : getBlockMap s b.parentID = .ok pb)
    (hc : getBlockMap s s.currentID = .ok cur)
    (hw : p.heavierThan (newChild p s pb b).1 cur = false) :
    addBlockToTree p s b = ((newChild p s pb b).2, .error .nonExtending) := by
  simp [addBlockToTree, hp, hc, hw]

/-- Tree insertion of a heavier block forks the chain. -/
lemma addBlockToTree_fork (p : CSParams) (s : Store) (b : Block)
    (pb cur : processedBlock)
    (hp : getBlockMap s b.parentID = .ok pb)
    (hc : getBlockMap s s.currentID = .ok cur)
    (hw : p.heavierThan (newChild p s pb b).1 cur = true) :
    addBlockToTree p s b =
      ((forkBlockchain (newChild p s pb b).2 cur (newChild p s pb b).1).2.2,
       .ok ((forkBlockchain (newChild p s pb b).2 cur (newChild p s pb b).1).1,
            (forkBlockchain (newChild p s pb b).2 cur
              (newChild p s pb b).1).2.1)) := by
  simp [addBlockToTree, hp, hc, hw]

/-- Inversion of a successful tree insertion: the parent and tip were
fetched, the child was strictly heavier, and the result is the fork. -/
lemma addBlockToTree_ok_inv (p : CSParams) (s : Store) (b : Block)
    (rev app : List processedBlock)
    (h : (addBlockToTree p s b).2 = .ok (rev, app)) :
    ∃ pb cur, getBlockMap s b.parentID = .ok pb ∧
      getBlockMap s s.currentID = .ok cur ∧
      p.heavierThan (newChild p s pb b).1 cur = true ∧
      rev = (forkBlockchain (newChild p s pb b).2 cur
        (newChild p s pb b).1).1 ∧
      app = (forkBlockchain (newChild p s pb b).2 cur
        (newChild p s pb b).1).2.1 ∧
      (addBlockToTree p s b).1 =
        (forkBlockchain (newChild p s pb b).2 cur
          (newChild p s pb b).1).2.2 := by
  cases hp : getBlockMap s b.parentID with
  | error e => rw [addBlockToTree_parent_error p s b e hp] at h; simp at h
  | ok pb =>
    cases hc : getBlockMap s s.currentID with
    | error e =>
      rw [addBlockToTree_current_error p s b pb e hp hc] at h; simp at h
    | ok cur =>
      by_cases hw : p.heavierThan (newChild p s pb b).1 cur = true
      · have heq := addBlockToTree_fork p s b pb cur hp hc hw
        rw [heq] at h
        simp only [Except.ok.injEq, Prod.mk.injEq] at h
        refine ⟨pb, cur, rfl, rfl, hw, h.1.symm, h.2.symm, ?_⟩
        rw [heq]
      · rw [addBlockToTree_nonExtending p s b pb cur hp hc
          (by simpa using hw)] at h
        simp at h

/-- `newChild` writes the child at the block's ID and touches nothing else
in the store shape. -/
lemma newChild_store (p : CSParams) (s : Store) (pb : processedBlock)
    (b : Block) :
    (newChild p s pb b).2.hasBlockMap = s.hasBlockMap ∧
    (newChild p s pb b).2.inconsistent = s.inconsistent ∧
    (newChild p s pb b).2.currentID = s.currentID ∧
    (newChild p s pb b).2.blockMap b.id = some (.ok (newChild p s pb b).1) := by
  refine ⟨rfl, rfl, rfl, ?_⟩
  simp [newChild]

/-- Fork resolution only retargets the current pointer. -/
lemma forkBlockchain_store (s : Store) (c n : processedBlock) :
    (forkBlockchain s c n).2.2 = { s with currentID := n.block.id } := rfl

/-- The apply list of fork resolution always ends with the new node. -/
lemma forkBlockchain_applied_shape (s : Store) (c n : processedBlock) :
    ∃ l, (forkBlockchain s c n).2.1 = l ++ [n] := ⟨_, rfl⟩

/-- The store after a successful insertion keeps the block-map bucket and
consistency flag and holds the new block. -/
lemma addBlockToTree_ok_store (p : CSParams) (s : Store) (b : Block)
    (rev app : List processedBlock)
    (h : (addBlockToTree p s b).2 = .ok (rev, app)) :
    (addBlockToTree p s b).1.hasBlockMap = s.hasBlockMap ∧
    (addBlockToTree p s b).1.inconsistent = s.inconsistent ∧
    ∃ c, (addBlockToTree p s b).1.blockMap b.id = some (.ok c) := by
  obtain ⟨pb, cur, hp, hc, hw, hrev, happ, hst⟩ :=
    addBlockToTree_ok_inv p s b rev app h
  rw [hst, forkBlockchain_store]
  refine ⟨?_, ?_, ⟨(newChild p s pb b).1, ?_⟩⟩ <;> simp [newChild]

end Sia

namespace Sia

/-- C2: header validation performs its checks in a fixed order — DoS-set
membership (known-invalid), then presence in the store (already-known),
then parent lookup (orphan), then parent-record decoding, then the
minimum-timestamp computation feeding the delegated block validator — and
an earlier failure settles the result: the quantification over the
parameters and the rest of the state shows no later check influences it. -/
theorem validateHeader_check_order :
    (∀ (p : CSParams) (cs : CState) (b : Block),
      cs.dosBlocks.contains b.id = true →
      validateHeader p cs b = .error .doSBlock) ∧
    (∀ (p : CSParams) (cs : CState) (b : Block),
      cs.dosBlocks.contains b.id = false → cs.store.hasBlockMap = true →
      (cs.store.blockMap b.id).isSome = true →
      validateHeader p cs b = .error .blockKnown) ∧
    (∀ (p : CSParams) (cs : CState) (b : Block),
      cs.dosBlocks.contains b.id = false → cs.store.hasBlockMap = true →
      cs.store.blockMap b.id = none → cs.store.blockMap b.parentID = none →
      validateHeader p cs b = .error .orphan) ∧
    (∀ (p : CSParams) (cs : CState) (b : Block),
      cs.dosBlocks.contains b.id = false → cs.store.hasBlockMap = true →
      cs.store.blockMap b.id = none →
      cs.store.blockMap b.parentID = some .corrupt →
      validateHeader p cs b = .error .unmarshalFail) ∧
    (∀ (p : CSParams) (cs : CState) (b : Block) (parent : processedBlock),
      cs.dosBlocks.contains b.id = false → cs.store.hasBlockMap = true →
      cs.store.blockMap b.id = none →
      cs.store.blockMap b.parentID = some (.ok parent) →
      validateHeader p cs b =
        match p.validateBlock b
            (p.minimumValidChildTimestamp cs.store parent)
            parent.childTarget (parent.height + 1) with
        | some v => .error v.toCErr
        | none => .ok ()) :=
  ⟨validateHeader_dos, validateHeader_known, validateHeader_orphan,
   validateHeader_corrupt, validateHeader_delegates⟩

/-- Witness for the check-order theorem: each stage of the order observed
on a concrete scenario — DoS hit, duplicate block, orphan, corrupt parent,
and full delegation ending in acceptance. -/
theorem validateHeader_check_order_witness :
    validateHeader pW csDos bDos = .error .doSBlock ∧
    validateHeader pW csW genesisBlock = .error .blockKnown ∧
    validateHeader pW csW bOrphan = .error .orphan ∧
    validateHeader pW csCorrupt bCorruptParent = .error .unmarshalFail ∧
    validateHeader pW csW b2 = .ok () :=
  ⟨validateHeader_check_order.1 pW csDos bDos (by decide),
   validateHeader_check_order.2.1 pW csW genesisBlock (by decide) (by decide)
     (by decide),
   validateHeader_check_order.2.2.1 pW csW bOrphan (by decide) (by decide)
     (by decide) (by decide),
   validateHeader_check_order.2.2.2.1 pW csCorrupt bCorruptParent (by decide)
     (by decide) (by decide) (by decide),
   (validateHeader_check_order.2.2.2.2 pW csW b2 genesisPB (by decide)
     (by decide) (by decide) (by decide)).trans rfl⟩

/-- C6: a block whose declared parent is absent from the store is rejected
with the orphan signal and no store mutation — the state (tree, current
pointer, change log) is returned unchanged, nobody is notified and no
read-write transaction is opened. -/
theorem acceptBlock_orphan_no_mutation (p : CSParams) (now : Nat)
    (cs : CState) (b : Block)
    (h0 : cs.store.inconsistent = false)
    (h1 : cs.dosBlocks.contains b.id = false)
    (h2 : cs.store.hasBlockMap = true)
    (h3 : cs.store.blockMap b.id = none)
    (h4 : cs.store.blockMap b.parentID = none) :
    (AcceptBlock p now cs b).err = some .orphan ∧
    (AcceptBlock p now cs b).state = cs ∧
    (AcceptBlock p now cs b).notified = [] ∧
    (AcceptBlock p now cs b).updateTxOpened = false := by
  have hpre : acceptPrecheck p cs b = some .orphan :=
    acceptPrecheck_header_error p cs b _ h0
      (validateHeader_orphan p cs b h1 h2 h3 h4)
  rw [AcceptBlock_of_precheck_some p now cs b _ hpre]
  exact ⟨rfl, rfl, rfl, rfl⟩

/-- Witness for the orphan theorem on the concrete scenario: accepting a
block whose parent is unknown yields the orphan signal and no mutation. -/
theorem acceptBlock_orphan_no_mutation_witness :
    (AcceptBlock pW 100 csW bOrphan).err = some .orphan ∧
    (AcceptBlock pW 100 csW bOrphan).state = csW :=
  ⟨(acceptBlock_orphan_no_mutation pW 100 csW bOrphan (by decide) (by decide)
      (by decide) (by decide) (by decide)).1,
   (acceptBlock_orphan_no_mutation pW 100 csW bOrphan (by decide) (by decide)
      (by decide) (by decide) (by decide)).2.1⟩

/-- C7 fails as stated: accepting the DoS-listed block of the concrete
scenario returns the known-invalid signal, yet it is not true that no store
transaction was opened — the consistency precheck and header validation run
inside a read-only transaction before the DoS set is consulted. -/
theorem acceptBlock_dos_counterexample :
    (AcceptBlock pW 100 csDos bDos).err = some .doSBlock ∧
    ¬ (AcceptBlock pW 100 csDos bDos).viewTxOpened = false :=
  ⟨by decide, by decide⟩

/-- C7 (amended): a block whose ID is in the DoS set is rejected with the
known-invalid signal, with no state mutation and no read-write store
transaction; a read-only transaction is however opened for the consistency
precheck (assumed passing here) and header validation. -/
theorem acceptBlock_dos_knownInvalid (p : CSParams) (now : Nat)
    (cs : CState) (b : Block)
    (h0 : cs.store.inconsistent = false)
    (h1 : cs.dosBlocks.contains b.id = true) :
    (AcceptBlock p now cs b).err = some .doSBlock ∧
    (AcceptBlock p now cs b).state = cs ∧
    (AcceptBlock p now cs b).notified = [] ∧
    (AcceptBlock p now cs b).updateTxOpened = false ∧
    (AcceptBlock p now cs b).viewTxOpened = true := by
  have hpre : acceptPrecheck p cs b = some .doSBlock :=
    acceptPrecheck_header_error p cs b _ h0 (validateHeader_dos p cs b h1)
  rw [AcceptBlock_of_precheck_some p now cs b _ hpre]
  exact ⟨rfl, rfl, rfl, rfl, rfl⟩

/-- Witness for the amended DoS theorem on the concrete scenario. -/
theorem acceptBlock_dos_knownInvalid_witness :
    (AcceptBlock pW 100 csDos bDos).state = csDos ∧
    (AcceptBlock pW 100 csDos bDos).updateTxOpened = false :=
  ⟨(acceptBlock_dos_knownInvalid pW 100 csDos bDos (by decide)
      (by decide)).2.1,
   (acceptBlock_dos_knownInvalid pW 100 csDos bDos (by decide)
      (by decide)).2.2.2.1⟩

/-- C8: the global consistency precheck runs on entry: on a corrupted
store, acceptance aborts with the fatal consistency error, mutates nothing,
opens no read-write transaction, and — the corruption being a persistent
property of the unchanged store — every subsequent acceptance on the
resulting state aborts the same way, so this instance accepts no further
block. -/
theorem acceptBlock_inconsistent_halts (p : CSParams) (now : Nat)
    (cs : CState) (b : Block)
    (h : cs.store.inconsistent = true) :
    (AcceptBlock p now cs b).err = some .inconsistentDB ∧
    (AcceptBlock p now cs b).state = cs ∧
    (AcceptBlock p now cs b).notified = [] ∧
    (AcceptBlock p now cs b).updateTxOpened = false ∧
    ∀ (p' : CSParams) (now' : Nat) (b' : Block),
      (AcceptBlock p' now' (AcceptBlock p now cs b).state b').err =
        some .inconsistentDB := by
  rw [AcceptBlock_of_precheck_some p now cs b _
    (acceptPrecheck_inconsistent p cs b h)]
  refine ⟨rfl, rfl, rfl, rfl, ?_⟩
  intro p' now' b'
  show (AcceptBlock p' now' cs b').err = some .inconsistentDB
  rw [AcceptBlock_of_precheck_some p' now' cs b' _
    (acceptPrecheck_inconsistent p' cs b' h)]

/-- Witness for the halting theorem on the concrete inconsistent store. -/
theorem acceptBlock_inconsistent_halts_witness :
    (AcceptBlock pW 100 csBad b2).err = some .inconsistentDB ∧
    (AcceptBlock pW 101 (AcceptBlock pW 100 csBad b2).state b3).err =
      some .inconsistentDB :=
  ⟨(acceptBlock_inconsistent_halts pW 100 csBad b2 (by decide)).1,
   (acceptBlock_inconsistent_halts pW 100 csBad b2 (by decide)).2.2.2.2
     pW 101 b3⟩

/-- C4: when header validation reports a future timestamp, acceptance
returns that signal to the caller with no state mutation, no notification,
no relay and no read-write transaction, and records a deferred
fire-and-forget re-invocation of the whole pipeline for the same block
after (timestamp − (now + future-tolerance)) seconds. -/
theorem acceptBlock_futureTimestamp_defers (p : CSParams) (now : Nat)
    (cs : CState) (b : Block)
    (h0 : cs.store.inconsistent = false)
    (h1 : validateHeader p cs b = .error .futureTimestamp) :
    (AcceptBlock p now cs b).err = some .futureTimestamp ∧
    (AcceptBlock p now cs b).state = cs ∧
    (AcceptBlock p now cs b).notified = [] ∧
    (AcceptBlock p now cs b).updateTxOpened = false ∧
    (AcceptBlock p now cs b).broadcast = false ∧
    (AcceptBlock p now cs b).scheduledRetry =
      some (b.timestamp - (now + p.futureThreshold), b) := by
  rw [AcceptBlock_of_precheck_some p now cs b _
    (acceptPrecheck_header_error p cs b _ h0 h1)]
  exact ⟨rfl, rfl, rfl, rfl, rfl, by simp⟩

/-- Witness for the future-timestamp theorem: with tolerance 10 and local
time 50, a block stamped 200 is deferred by exactly 140 seconds. -/
theorem acceptBlock_futureTimestamp_defers_witness :
    (AcceptBlock pFuture 50 csW bFut).err = some .futureTimestamp ∧
    (AcceptBlock pFuture 50 csW bFut).scheduledRetry = some (140, bFut) :=
  ⟨(acceptBlock_futureTimestamp_defers pFuture 50 csW bFut (by decide)
      rfl).1,
   ((acceptBlock_futureTimestamp_defers pFuture 50 csW bFut (by decide)
      rfl).2.2.2.2.2).trans rfl⟩

/-- C1: a valid block that is not heavier than the current tip is still
committed — the new child record persists in the block map — while the
distinguished non-extending signal is returned, the current pointer is
unchanged, no change entry is appended and nobody is notified. -/
theorem acceptBlock_nonExtending_commits (p : CSParams) (now : Nat)
    (cs : CState) (b : Block) (pb cur : processedBlock)
    (h0 : cs.store.inconsistent = false)
    (h1 : validateHeader p cs b = .ok ())
    (h2 : getBlockMap cs.store b.parentID = .ok pb)
    (h3 : getBlockMap cs.store cs.store.currentID = .ok cur)
    (h4 : p.heavierThan (newChild p cs.store pb b).1 cur = false) :
    (AcceptBlock p now cs b).err = some .nonExtending ∧
    (AcceptBlock p now cs b).state.store = (newChild p cs.store pb b).2 ∧
    (AcceptBlock p now cs b).state.store.blockMap b.id =
      some (.ok (newChild p cs.store pb b).1) ∧
    (AcceptBlock p now cs b).state.store.currentID = cs.store.currentID ∧
    (AcceptBlock p now cs b).state.changeLog = cs.changeLog ∧
    (AcceptBlock p now cs b).notified = [] := by
  have hpre : acceptPrecheck p cs b = none := by
    simp [acceptPrecheck, h0, h1]
  have htree := addBlockToTree_nonExtending p cs.store b pb cur h2 h3 h4
  have h5 : (addBlockToTree p cs.store b).2 = .error .nonExtending := by
    rw [htree]
  rw [AcceptBlock_of_tree_error p now cs b _ hpre h5]
  refine ⟨rfl, ?_, ?_, ?_, rfl, rfl⟩
  · show (addBlockToTree p cs.store b).1 = _
    rw [htree]
  · show (addBlockToTree p cs.store b).1.blockMap b.id = _
    rw [htree]
    exact (newChild_store p cs.store pb b).2.2.2
  · show (addBlockToTree p cs.store b).1.currentID = _
    rw [htree]
    exact (newChild_store p cs.store pb b).2.2.1

/-- Witness for the non-extending theorem: with the tip at height 1, a
sibling at height 1 is stored but returns the non-extending signal and
leaves the tip untouched. -/
theorem acceptBlock_nonExtending_commits_witness :
    (AcceptBlock pW 100 csW2 b3).err = some .nonExtending ∧
    (AcceptBlock pW 100 csW2 b3).state.store.currentID =
      csW2.store.currentID ∧
    (AcceptBlock pW 100 csW2 b3).state.changeLog = csW2.changeLog :=
  ⟨(acceptBlock_nonExtending_commits pW 100 csW2 b3 genesisPB pb2 (by decide)
      rfl rfl rfl (by decide)).1,
   (acceptBlock_nonExtending_commits pW 100 csW2 b3 genesisPB pb2 (by decide)
      rfl rfl rfl (by decide)).2.2.2.1,
   (acceptBlock_nonExtending_commits pW 100 csW2 b3 genesisPB pb2 (by decide)
      rfl rfl rfl (by decide)).2.2.2.2.1⟩

end Sia

namespace Sia

/-- A consistent state already holding the block rejects it as already
known, touching nothing. -/
lemma acceptBlock_blockKnown (p : CSParams) (now : Nat) (cs : CState)
    (b : Block)
    (h0 : cs.store.inconsistent = false)
    (h1 : cs.dosBlocks.contains b.id = false)
    (h2 : cs.store.hasBlockMap = true)
    (h3 : (cs.store.blockMap b.id).isSome = true) :
    AcceptBlock p now cs b =
      { err := some .blockKnown
        state := cs
        notified := []
        scheduledRetry := none
        broadcast := false
        viewTxOpened := true
        updateTxOpened := false
        panicked := false } := by
  rw [AcceptBlock_of_precheck_some p now cs b _
    (acceptPrecheck_header_error p cs b _ h0
      (validateHeader_known p cs b h1 h2 h3))]
  rfl

/-- C3: acceptance is idempotent — once a block has been accepted
successfully, accepting the same block again returns the already-known
signal (a benign outcome, not a hard error), leaves the state exactly as it
was, notifies nobody, opens no read-write transaction, and appends no
second change entry. -/
theorem acceptBlock_idempotent (p : CSParams) (now now' : Nat) (cs : CState)
    (b : Block) (h : (AcceptBlock p now cs b).err = none) :
    (AcceptBlock p now' (AcceptBlock p now cs b).state b).err =
      some .blockKnown ∧
    (AcceptBlock p now' (AcceptBlock p now cs b).state b).state =
      (AcceptBlock p now cs b).state ∧
    (AcceptBlock p now' (AcceptBlock p now cs b).state b).notified = [] ∧
    (AcceptBlock p now' (AcceptBlock p now cs b).state b).updateTxOpened =
      false := by
  have hpre : acceptPrecheck p cs b = none := by
    cases hp : acceptPrecheck p cs b with
    | none => rfl
    | some e =>
      rw [AcceptBlock_of_precheck_some p now cs b e hp] at h
      exact absurd h (by simp)
  obtain ⟨hinc, hv⟩ := acceptPrecheck_none_inv p cs b hpre
  obtain ⟨hdos, hbm, _⟩ := validateHeader_ok_facts p cs b hv
  cases ht : (addBlockToTree p cs.store b).2 with
  | error e =>
    rw [AcceptBlock_of_tree_error p now cs b e hpre ht] at h
    exact absurd h (by simp)
  | ok ra =>
    obtain ⟨rev, app⟩ := ra
    have hacc := AcceptBlock_of_tree_ok p now cs b rev app hpre ht
    obtain ⟨hbm1, hinc1, c, hc1⟩ :=
      addBlockToTree_ok_store p cs.store b rev app ht
    have e1 : (AcceptBlock p now cs b).state.dosBlocks = cs.dosBlocks := by
      rw [hacc]
    have e2 : (AcceptBlock p now cs b).state.store =
        (addBlockToTree p cs.store b).1 := by
      rw [hacc]
    have hfin := acceptBlock_blockKnown p now' (AcceptBlock p now cs b).state b
      (by rw [e2, hinc1]; exact hinc)
      (by rw [e1]; exact hdos)
      (by rw [e2, hbm1]; exact hbm)
      (by rw [e2, hc1]; rfl)
    rw [hfin]
    exact ⟨rfl, rfl, rfl, rfl⟩

/-- Witness for idempotence: accepting the child of genesis twice on the
concrete scenario, the second call answers already-known and changes
nothing. -/
theorem acceptBlock_idempotent_witness :
    (AcceptBlock pW 101 (AcceptBlock pW 100 csW b2).state b2).err =
      some .blockKnown ∧
    (AcceptBlock pW 101 (AcceptBlock pW 100 csW b2).state b2).state =
      (AcceptBlock pW 100 csW b2).state :=
  ⟨(acceptBlock_idempotent pW 100 101 csW b2 rfl).1,
   (acceptBlock_idempotent pW 100 101 csW b2 rfl).2.1⟩

/-- C5: every change entry produced by a successful acceptance satisfies
the revert/apply symmetry invariant — its apply list is never empty, hence
"no blocks applied implies no blocks reverted" holds, and the debug sanity
check at the end of acceptance never fires. -/
theorem changeEntry_symmetry (p : CSParams) (now : Nat) (cs : CState)
    (b : Block) (h : (AcceptBlock p now cs b).err = none) :
    ∃ ce, (AcceptBlock p now cs b).state.changeLog = cs.changeLog ++ [ce] ∧
      (ce.appliedBlocks = [] → ce.revertedBlocks = []) ∧
      (AcceptBlock p now cs b).panicked = false := by
  have hpre : acceptPrecheck p cs b = none := by
    cases hp : acceptPrecheck p cs b with
    | none => rfl
    | some e =>
      rw [AcceptBlock_of_precheck_some p now cs b e hp] at h
      exact absurd h (by simp)
  cases ht : (addBlockToTree p cs.store b).2 with
  | error e =>
    rw [AcceptBlock_of_tree_error p now cs b e hpre ht] at h
    exact absurd h (by simp)
  | ok ra =>
    obtain ⟨rev, app⟩ := ra
    have hacc := AcceptBlock_of_tree_ok p now cs b rev app hpre ht
    obtain ⟨pb, cur, hp2, hc2, hw, hrev, happ, hst⟩ :=
      addBlockToTree_ok_inv p cs.store b rev app ht
    obtain ⟨l, hl⟩ := forkBlockchain_applied_shape
      (newChild p cs.store pb b).2 cur (newChild p cs.store pb b).1
    have happl : app = l ++ [(newChild p cs.store pb b).1] := by
      rw [happ, hl]
    refine ⟨{ revertedBlocks := rev.map fun rn => rn.block.id
              appliedBlocks := app.map fun an => an.block.id },
      by rw [hacc], ?_, ?_⟩
    · intro hempty
      exfalso
      rw [happl] at hempty
      simp at hempty
    · rw [hacc]
      show (app.isEmpty && !rev.isEmpty) = false
      rw [happl]
      simp

/-- Witness for the symmetry invariant on the concrete successful
acceptance. -/
theorem changeEntry_symmetry_witness :
    ∃ ce, (AcceptBlock pW 100 csW b2).state.changeLog =
        csW.changeLog ++ [ce] ∧
      (ce.appliedBlocks = [] → ce.revertedBlocks = []) ∧
      (AcceptBlock pW 100 csW b2).panicked = false :=
  changeEntry_symmetry pW 100 csW b2 rfl

/-- C9: a successful (extending) acceptance appends exactly one change
entry, built from the revert/apply ID lists, and that entry is delivered to
subscribers exactly when its apply list is non-empty; any acceptance that
returns a failure or the non-extending signal appends no entry and notifies
nobody. -/
theorem acceptBlock_changelog_notification (p : CSParams) (now : Nat)
    (cs : CState) (b : Block) :
    ((AcceptBlock p now cs b).err = none →
      ∃ ce, (AcceptBlock p now cs b).state.changeLog =
          cs.changeLog ++ [ce] ∧
        ((AcceptBlock p now cs b).notified = [ce] ↔
          ce.appliedBlocks ≠ [])) ∧
    (∀ e, (AcceptBlock p now cs b).err = some e →
      (AcceptBlock p now cs b).notified = [] ∧
      (AcceptBlock p now cs b).state.changeLog = cs.changeLog) := by
  cases hp : acceptPrecheck p cs b with
  | some e0 =>
    rw [AcceptBlock_of_precheck_some p now cs b e0 hp]
    refine ⟨fun h => absurd h (by simp), fun e he => ⟨rfl, rfl⟩⟩
  | none =>
    cases ht : (addBlockToTree p cs.store b).2 with
    | error e0 =>
      rw [AcceptBlock_of_tree_error p now cs b e0 hp ht]
      refine ⟨fun h => absurd h (by simp), fun e he => ⟨rfl, rfl⟩⟩
    | ok ra =>
      obtain ⟨rev, app⟩ := ra
      have hacc := AcceptBlock_of_tree_ok p now cs b rev app hp ht
      obtain ⟨pb, cur, hp2, hc2, hw, hrev, happ, hst⟩ :=
        addBlockToTree_ok_inv p cs.store b rev app ht
      obtain ⟨l, hl⟩ := forkBlockchain_applied_shape
        (newChild p cs.store pb b).2 cur (newChild p cs.store pb b).1
      have happl : app = l ++ [(newChild p cs.store pb b).1] := by
        rw [happ, hl]
      rw [hacc]
      constructor
      · intro _
        refine ⟨{ revertedBlocks := rev.map fun rn => rn.block.id
                  appliedBlocks := app.map fun an => an.block.id },
          rfl, ?_⟩
        apply iff_of_true
        · show (if app.length > 0 then _ else []) = _
          have : app.length > 0 := by rw [happl]; simp
          simp [this]
        · rw [happl]
          simp
      · intro e he
        exact absurd he (by simp)

/-- Witness for the change-log/notification theorem: the successful
concrete acceptance appends and delivers one entry, and the concrete orphan
rejection appends and delivers nothing. -/
theorem acceptBlock_changelog_notification_witness :
    (∃ ce, (AcceptBlock pW 100 csW b2).state.changeLog =
        csW.changeLog ++ [ce] ∧
      ((AcceptBlock pW 100 csW b2).notified = [ce] ↔
        ce.appliedBlocks ≠ [])) ∧
    (AcceptBlock pW 100 csW bOrphan).notified = [] ∧
    (AcceptBlock pW 100 csW bOrphan).state.changeLog = csW.changeLog :=
  ⟨(acceptBlock_changelog_notification pW 100 csW b2).1 rfl,
   (acceptBlock_changelog_notification pW 100 csW bOrphan).2 .orphan rfl⟩

end Sia
